import Mathlib

/-!
Verification of the DREXgeo transfer-function region editor.

This file gives a shallow embedding of the editing core of
`plot/DREXProTF.py` (records of four equal-length sequences, bounded
undo history, region-bounded point deletion, single-point deletion,
load-time filtering) and of `ATSReader.get_data_slice` from
`plot/DREXtsplot.py`, and proves the spec-level properties about them.

Numeric data carried by records is modelled by rationals (the JSON
documents hold exact decimal literals); plot-space coordinates and the
derived quantities that involve `log10` and `angle` are modelled by
real numbers.
-/

namespace DrexGeo

/-! ## Generic list helpers -/

/-- Apply a numpy-style boolean mask positionally: keep the elements of
`l` whose corresponding entry of `m` is `true`. -/
def filterByMask {α : Type} : List Bool → List α → List α
  | true :: ms, a :: as => a :: filterByMask ms as
  | false :: ms, _ :: as => filterByMask ms as
  | _, _ => []

/-- Three-way elementwise zip, mirroring a numpy expression over three
arrays of the same length. -/
def zipWith3 {α β γ δ : Type} (f : α → β → γ → δ) : List α → List β → List γ → List δ
  | a :: as, b :: bs, c :: cs => f a b c :: zipWith3 f as bs cs
  | _, _, _ => []

/-! ## Undo history (`push_to_undo_stack`, DREXProTF.py lines 251-259)

The Python method first evicts index 0 when the current length already
exceeds 50, and then appends a deep copy of the active data.  Deep
copying is the identity on immutable Lean values, so the snapshot is
simply the pushed value. -/

/-- One push of `push_to_undo_stack`: evict the oldest entry when the
stack already holds more than 50 snapshots, then append the new one. -/
def pushSnapshot {D : Type} (stack : List D) (d : D) : List D :=
  (if 50 < stack.length then stack.drop 1 else stack) ++ [d]

/-! ## Records and load-time filtering (`load_selected_data_into_memory`) -/

/-- One component block `Data.Z.<comp>` of a parsed JSON document. -/
structure Zblock where
  re : List ℚ
  im : List ℚ
  var : List ℚ
  deriving DecidableEq

/-- The parts of a parsed JSON document the editor reads: `Data.Freq`
and the component blocks under `Data.Z`. -/
structure DocData where
  freq : List ℚ
  z : List (String × Zblock)
  deriving DecidableEq

/-- One in-memory record: the four filtered sequences plus the original
parsed document carried through as passthrough payload. -/
structure RecordQ where
  freq : List ℚ
  re : List ℚ
  im : List ℚ
  var : List ℚ
  original : DocData
  deriving DecidableEq

/-- The boolean mask `freq > 0` used at load time. -/
def validMask (freq : List ℚ) : List Bool :=
  freq.map fun f => decide (0 < f)

/-- Loading of one selected file for one component label.  Returns
`none` when the component is absent (KeyError, caught and skipped) or
when the sequence lengths disagree (numpy boolean indexing raises,
caught and skipped); otherwise the four sequences filtered to the
strictly positive frequencies. -/
def loadRecord (doc : DocData) (comp : String) : Option RecordQ :=
  match doc.z.lookup comp with
  | none => none
  | some cb =>
    if cb.re.length = doc.freq.length ∧ cb.im.length = doc.freq.length ∧
        cb.var.length = doc.freq.length then
      some ⟨filterByMask (validMask doc.freq) doc.freq,
            filterByMask (validMask doc.freq) cb.re,
            filterByMask (validMask doc.freq) cb.im,
            filterByMask (validMask doc.freq) cb.var, doc⟩
    else none

/-! ## Editor state and the wholesale-replacement handlers -/

/-- The geometry of the selection rectangle, as read from the ROI
widget: position and size. -/
structure Roi where
  posX : ℝ
  posY : ℝ
  sizeX : ℝ
  sizeY : ℝ

/-- Checked-state of the four display-mode toggle buttons. -/
structure Btns where
  re : Bool
  im : Bool
  amp : Bool
  ph : Bool
  deriving DecidableEq

/-- The mutable state of `MainWindow` that the editing logic touches. -/
structure EditorState where
  current_directory : String
  whattoplot : String
  active_data : List (String × RecordQ)
  undo_stack : List (List (String × RecordQ))
  roi_visible : Bool
  roi : Roi
  btns : Btns

/-- The state-level push: snapshot the active data onto the history. -/
def push_to_undo_stack (s : EditorState) : EditorState :=
  { s with undo_stack := pushSnapshot s.undo_stack s.active_data }

/-- Restore the most recent snapshot; with an empty history only the
status message changes ("Nothing to Undo"). -/
def undo_last_action (s : EditorState) : EditorState :=
  match s.undo_stack.getLast? with
  | none => s
  | some d => { s with active_data := d, undo_stack := s.undo_stack.dropLast }

/-- Parse results for the currently selected files: each key paired
with its parsed document, or `none` for an unreadable file. -/
def load_selected_data_into_memory
    (files : List (String × Option DocData)) (s : EditorState) : EditorState :=
  { s with active_data :=
      files.filterMap fun pd =>
        (pd.2.bind fun doc => loadRecord doc s.whattoplot).map fun r => (pd.1, r) }

/-- Selection-change handler: reload the active data (and replot); the
undo history is not touched. -/
def on_file_selection_changed
    (files : List (String × Option DocData)) (s : EditorState) : EditorState :=
  load_selected_data_into_memory files s

/-- Directory-open handler: with a non-empty chosen directory, reset
the working set and clear the undo history. -/
def open_directory_dialog (dirName : String) (s : EditorState) : EditorState :=
  if dirName = "" then s
  else { s with current_directory := dirName, active_data := [], undo_stack := [] }

/-- Component-switch handler: record the new label, clear the undo
history, then reload the selection under the new label. -/
def handle_component_change
    (label : String) (files : List (String × Option DocData)) (s : EditorState) :
    EditorState :=
  load_selected_data_into_memory files
    { s with whattoplot := label, undo_stack := [] }

/-! ## Single-point deletion (`on_point_clicked`, lines 419-437) -/

/-- The semantics of `np.delete(arr, i)` for a non-negative index:
remove element `i`, or raise IndexError when `i` is out of bounds. -/
def npDelete {α : Type} (l : List α) (i : ℕ) : Option (List α) :=
  if i < l.length then some (l.eraseIdx i) else none

/-- The four in-place `np.delete` assignments of `on_point_clicked`,
performed sequentially; the boolean records whether an IndexError was
raised, and the returned record holds whatever assignments happened
before the raise. -/
def on_point_clicked (d : RecordQ) (idx : ℕ) : RecordQ × Bool :=
  match npDelete d.freq idx with
  | none => (d, true)
  | some f =>
    match npDelete d.re idx with
    | none => ({ d with freq := f }, true)
    | some r =>
      match npDelete d.im idx with
      | none => ({ d with freq := f, re := r }, true)
      | some i' =>
        match npDelete d.var idx with
        | none => ({ d with freq := f, re := r, im := i' }, true)
        | some v => (⟨f, r, i', v, d.original⟩, false)

/-! ## Region deletion (`delete_points_in_roi`, lines 290-359)

The X coordinate of every point is `-log10(freq)`; the Y coordinate of
a point depends on which display-mode buttons are checked.  Comparisons
happen in plot space, modelled by real numbers; the propositional
comparisons are made boolean through classical decidability. -/

open scoped Classical

/-- Plot-space X of a frequency value: `-np.log10(freq)` (line 319). -/
noncomputable def negLog10 (f : ℚ) : ℝ := -Real.logb 10 (f : ℝ)

/-- The amplitude used for the region test, exactly as written on line
315: `amp = 0.2 * 1/freq * re**2 + im**2`.  By operator precedence the
factor `0.2/freq` multiplies only `re**2`. -/
noncomputable def ampDeleteFormula (f r i : ℝ) : ℝ := 0.2 * 1 / f * r ^ 2 + i ^ 2

/-- The amplitude (apparent-resistivity proxy) the specification
states: `0.2 / freq * (re^2 + im^2)`. -/
noncomputable def specAmplitude (f r i : ℝ) : ℝ := 0.2 / f * (r ^ 2 + i ^ 2)

/-- The quantity whose `log10` `refresh_plot` displays in amplitude
mode (lines 477-479): `0.2/freq * (sqrt(re^2+im^2))**2`. -/
noncomputable def refreshAmpArg (f r i : ℝ) : ℝ :=
  0.2 / f * Real.sqrt (r ^ 2 + i ^ 2) ^ 2

/-- The phase `np.angle(re + im*1j, deg=True)` (line 316). -/
noncomputable def npAngleDeg (r i : ℚ) : ℝ :=
  Complex.arg ((r : ℝ) + (i : ℝ) * Complex.I) * 180 / Real.pi

/-- One of the per-mode masks of lines 328-342:
`(x_vals >= x_min) & (x_vals <= x_max) & (ys >= y_min) & (ys <= y_max)`
taken elementwise over the X and Y arrays. -/
noncomputable def boxMask (xmin xmax ymin ymax : ℝ) (xs ys : List ℝ) : List Bool :=
  List.zipWith
    (fun x y => decide (x ≥ xmin) && decide (x ≤ xmax) &&
      decide (y ≥ ymin) && decide (y ≤ ymax)) xs ys

/-- Elementwise `|=` of two boolean arrays. -/
def orMask (a b : List Bool) : List Bool := List.zipWith (· || ·) a b

/-- The accumulated deletion mask of one record: start from
`np.zeros_like(freq, dtype=bool)` and OR in the box mask of every
checked display mode. -/
noncomputable def maskToDelete (d : RecordQ) (xmin xmax ymin ymax : ℝ) (b : Btns) :
    List Bool :=
  let xs := d.freq.map negLog10
  let reR := d.re.map fun q : ℚ => (q : ℝ)
  let imR := d.im.map fun q : ℚ => (q : ℝ)
  let amp := zipWith3 (fun f r i : ℚ => ampDeleteFormula (f : ℝ) (r : ℝ) (i : ℝ))
    d.freq d.re d.im
  let ph := List.zipWith npAngleDeg d.re d.im
  let m0 := List.replicate d.freq.length false
  let m1 := if b.re then orMask m0 (boxMask xmin xmax ymin ymax xs reR) else m0
  let m2 := if b.im then orMask m1 (boxMask xmin xmax ymin ymax xs imR) else m1
  let m3 := if b.amp then orMask m2 (boxMask xmin xmax ymin ymax xs amp) else m2
  if b.ph then orMask m3 (boxMask xmin xmax ymin ymax xs ph) else m3

/-- Deletion applied to one record of the working set (lines 344-353):
when any index is marked, filter all four raw sequences to the
complement of the mask; the second component is this record's
contribution to `points_deleted`. -/
noncomputable def deleteRecord (d : RecordQ) (xmin xmax ymin ymax : ℝ) (b : Btns) :
    RecordQ × ℕ :=
  let mask := maskToDelete d xmin xmax ymin ymax b
  let keep := mask.map (!·)
  if mask.any id then
    (⟨filterByMask keep d.freq, filterByMask keep d.re,
      filterByMask keep d.im, filterByMask keep d.var, d.original⟩,
      mask.count true)
  else (d, 0)

/-- The full handler: return unchanged unless the ROI is shown and data
is loaded; otherwise snapshot the working set, then delete inside the
rectangle `[pos.x, pos.x+size.x] × [pos.y, pos.y+size.y]` in every
record.  The second component is the total `points_deleted`. -/
noncomputable def delete_points_in_roi (s : EditorState) : EditorState × ℕ :=
  if s.roi_visible = false ∨ s.active_data = [] then (s, 0)
  else
    let s1 := push_to_undo_stack s
    let xmin := s.roi.posX
    let xmax := s.roi.posX + s.roi.sizeX
    let ymin := s.roi.posY
    let ymax := s.roi.posY + s.roi.sizeY
    let res := s1.active_data.map fun kd =>
      (kd.1, deleteRecord kd.2 xmin xmax ymin ymax s1.btns)
    ({ s1 with active_data := res.map fun x => (x.1, x.2.1) },
      (res.map fun x => x.2.2).sum)

/-! ## ATSReader.get_data_slice (DREXtsplot.py lines 62-67) -/

/-- Normalize one bound of a Python slice `l[a:b]` against a list of
length `len`: negative indices count from the end, and both bounds are
clamped into `[0, len]`. -/
def pySliceNorm (len : ℕ) (i : ℤ) : ℕ :=
  if i < 0 then (max 0 ((len : ℤ) + i)).toNat else min i.toNat len

/-- Python slice `l[a:b]` with step 1. -/
def pySlice {α : Type} (l : List α) (a b : ℤ) : List α :=
  (l.take (pySliceNorm l.length b)).drop (pySliceNorm l.length a)

/-- The fields of `ATSReader` that `get_data_slice` reads: the optional
channel-major sample buffer and the recorded sample count. -/
structure ATSReaderState where
  data : Option (List (List ℤ))
  num_samples : ℕ

/-- The slice accessor: clamp the start below at 0 and the end above at
`num_samples`, then take `data[:, start:end]`. -/
def get_data_slice (r : ATSReaderState) (start_idx end_idx : ℤ) :
    Option (List (List ℤ)) :=
  let s := max 0 start_idx
  let e := min (r.num_samples : ℤ) end_idx
  match r.data with
  | some d => some (d.map fun row => pySlice row s e)
  | none => none

/-! ## Helper lemmas -/

theorem filterByMask_nil_left {α : Type} (l : List α) : filterByMask [] l = [] := by
  cases l <;> rfl

theorem filterByMask_length {α : Type} :
    ∀ (m : List Bool) (l : List α), m.length = l.length →
      (filterByMask m l).length = m.count true := by
  intro m
  induction m with
  | nil => intro l _; simp [filterByMask_nil_left, List.count]
  | cons b ms ih =>
    intro l h
    cases l with
    | nil => simp at h
    | cons a as =>
      simp only [List.length_cons, Nat.succ.injEq] at h
      cases b with
      | true => simp [filterByMask, ih as h, List.count_cons]
      | false => simp [filterByMask, ih as h, List.count_cons]

theorem filterByMask_map_self {α : Type} (p : α → Bool) :
    ∀ (l : List α), filterByMask (l.map p) l = l.filter p := by
  intro l
  induction l with
  | nil => rfl
  | cons a as ih =>
    cases hpa : p a <;> simp [filterByMask, hpa, ih, List.filter_cons]

theorem filterByMask_all_true {α : Type} :
    ∀ (m : List Bool) (l : List α), m.length = l.length →
      (∀ x ∈ m, x = true) → filterByMask m l = l := by
  intro m
  induction m with
  | nil => intro l h _; cases l with
    | nil => rfl
    | cons a as => simp at h
  | cons b ms ih =>
    intro l h hall
    cases l with
    | nil => simp at h
    | cons a as =>
      have hb : b = true := hall b (by simp)
      subst hb
      simp only [List.length_cons, Nat.succ.injEq] at h
      simp [filterByMask, ih as h fun x hx => hall x (by simp [hx])]

theorem zipWith_getElem? {α β γ : Type} (f : α → β → γ) :
    ∀ (as : List α) (bs : List β) (i : ℕ),
      (List.zipWith f as bs)[i]? = as[i]?.bind fun a => bs[i]?.map (f a) := by
  intro as
  induction as with
  | nil => intro bs i; simp
  | cons a as ih =>
    intro bs i
    cases bs with
    | nil => simp
    | cons b bs =>
      cases i with
      | zero => simp
      | succ j => simpa using ih bs j

theorem zipWith3_getElem? {α β γ δ : Type} (f : α → β → γ → δ) :
    ∀ (as : List α) (bs : List β) (cs : List γ) (i : ℕ),
      (zipWith3 f as bs cs)[i]? =
        as[i]?.bind fun a => bs[i]?.bind fun b => cs[i]?.map (f a b) := by
  intro as
  induction as with
  | nil => intro bs cs i; simp [zipWith3]
  | cons a as ih =>
    intro bs cs i
    cases bs with
    | nil => simp [zipWith3]
    | cons b bs =>
      cases cs with
      | nil => simp [zipWith3]
      | cons c cs =>
        cases i with
        | zero => simp [zipWith3]
        | succ j => simpa [zipWith3] using ih bs cs j

theorem zipWith3_length {α β γ δ : Type} (f : α → β → γ → δ) :
    ∀ (as : List α) (bs : List β) (cs : List γ),
      (zipWith3 f as bs cs).length = min as.length (min bs.length cs.length) := by
  intro as
  induction as with
  | nil => intro bs cs; simp [zipWith3]
  | cons a as ih =>
    intro bs cs
    cases bs with
    | nil => simp [zipWith3]
    | cons b bs =>
      cases cs with
      | nil => simp [zipWith3]
      | cons c cs => simp [zipWith3, ih bs cs]; omega

theorem orMask_getElem? (a b : List Bool) (i : ℕ) :
    (orMask a b)[i]? = a[i]?.bind fun x => b[i]?.map (x || ·) :=
  zipWith_getElem? _ a b i

theorem boxMask_getElem? (xmin xmax ymin ymax : ℝ) (xs ys : List ℝ) (i : ℕ) :
    (boxMask xmin xmax ymin ymax xs ys)[i]? =
      xs[i]?.bind fun x => ys[i]?.map fun y =>
        decide (x ≥ xmin) && decide (x ≤ xmax) &&
          decide (y ≥ ymin) && decide (y ≤ ymax) :=
  zipWith_getElem? _ xs ys i

theorem orMask_length (a b : List Bool) :
    (orMask a b).length = min a.length b.length :=
  List.length_zipWith _ _ _

theorem boxMask_length (xmin xmax ymin ymax : ℝ) (xs ys : List ℝ) :
    (boxMask xmin xmax ymin ymax xs ys).length = min xs.length ys.length :=
  List.length_zipWith _ _ _

theorem guardOrMask_length (n : ℕ) (g : Bool) (m e : List Bool)
    (hm : m.length = n) (he : e.length = n) :
    (if g then orMask m e else m).length = n := by
  cases g <;> simp [orMask_length, hm, he]

theorem guardOr_getElem?_some (g : Bool) (m e : List Bool) (i : ℕ) (x y : Bool)
    (hm : m[i]? = some x) (he : e[i]? = some y) :
    (if g then orMask m e else m)[i]? = some (x || (g && y)) := by
  cases g
  · simpa using hm
  · simp [orMask_getElem?, hm, he]

theorem maskToDelete_length (d : RecordQ) (xmin xmax ymin ymax : ℝ) (b : Btns)
    (hre : d.re.length = d.freq.length) (him : d.im.length = d.freq.length) :
    (maskToDelete d xmin xmax ymin ymax b).length = d.freq.length := by
  simp only [maskToDelete]
  apply guardOrMask_length
  · apply guardOrMask_length
    · apply guardOrMask_length
      · apply guardOrMask_length
        · simp
        · rw [boxMask_length]; simp only [List.length_map]; omega
      · rw [boxMask_length]; simp only [List.length_map]; omega
    · rw [boxMask_length, zipWith3_length]; simp only [List.length_map]; omega
  · rw [boxMask_length, List.length_zipWith]; simp only [List.length_map]; omega

theorem deleteRecord_of_no_match (d : RecordQ) (xmin xmax ymin ymax : ℝ) (b : Btns)
    (h : ∀ m ∈ maskToDelete d xmin xmax ymin ymax b, m = false) :
    deleteRecord d xmin xmax ymin ymax b = (d, 0) := by
  have hany : (maskToDelete d xmin xmax ymin ymax b).any id = false := by
    rw [List.any_eq_false]
    intro x hx
    simp [h x hx]
  simp [deleteRecord, hany]

theorem delete_points_in_roi_guard (s : EditorState)
    (hg : s.roi_visible = false ∨ s.active_data = []) :
    delete_points_in_roi s = (s, 0) := by
  simp [delete_points_in_roi, hg]

theorem delete_points_in_roi_no_match (s : EditorState)
    (hvis : s.roi_visible = true) (hne : s.active_data ≠ [])
    (hnm : ∀ kd ∈ s.active_data,
      ∀ m ∈ maskToDelete kd.2 s.roi.posX (s.roi.posX + s.roi.sizeX)
        s.roi.posY (s.roi.posY + s.roi.sizeY) s.btns, m = false) :
    delete_points_in_roi s =
      ({ s with undo_stack := pushSnapshot s.undo_stack s.active_data }, 0) := by
  have hg : ¬ (s.roi_visible = false ∨ s.active_data = []) := by
    simp [hvis, hne]
  unfold delete_points_in_roi
  rw [if_neg hg]
  simp only [push_to_undo_stack]
  have hdata : (s.active_data.map fun kd =>
      (kd.1, deleteRecord kd.2 s.roi.posX (s.roi.posX + s.roi.sizeX)
        s.roi.posY (s.roi.posY + s.roi.sizeY) s.btns)).map
      (fun x => (x.1, x.2.1)) = s.active_data := by
    rw [List.map_map]
    have : ∀ kd ∈ s.active_data,
        ((fun x => (x.1, x.2.1)) ∘ fun kd =>
          (kd.1, deleteRecord kd.2 s.roi.posX (s.roi.posX + s.roi.sizeX)
            s.roi.posY (s.roi.posY + s.roi.sizeY) s.btns)) kd = id kd := by
      intro kd hkd
      simp [deleteRecord_of_no_match _ _ _ _ _ _ (hnm kd hkd)]
    rw [List.map_congr_left this, List.map_id]
  have hcount : ((s.active_data.map fun kd =>
      (kd.1, deleteRecord kd.2 s.roi.posX (s.roi.posX + s.roi.sizeX)
        s.roi.posY (s.roi.posY + s.roi.sizeY) s.btns)).map
      (fun x => x.2.2)).sum = 0 := by
    rw [List.map_map]
    apply List.sum_eq_zero
    intro x hx
    obtain ⟨kd, hkd, rfl⟩ := List.mem_map.mp hx
    simp [deleteRecord_of_no_match _ _ _ _ _ _ (hnm kd hkd)]
  rw [Prod.mk.injEq]
  constructor
  · rw [hdata]
  · exact hcount

/-! ## Claim theorems -/

/-- C1: the amplitude actually used for region tests is
`0.2/freq * re^2 + im^2` (operator precedence binds `0.2 * 1/freq`
to `re**2` only), not the claimed `0.2/freq * (re^2 + im^2)`: at
`freq = 1, re = 0, im = 1` the code value is `1` while the claimed
value is `1/5`.  The pre-log quantity displayed by `refresh_plot`
does equal the claimed formula, so the region-test formula also
contradicts the program's own display formula. -/
theorem amp_region_formula_bug :
    ampDeleteFormula 1 0 1 = 1 ∧ specAmplitude 1 0 1 = 1 / 5 ∧
      ampDeleteFormula 1 0 1 ≠ specAmplitude 1 0 1 ∧
      ∀ f r i : ℝ, refreshAmpArg f r i = specAmplitude f r i := by
  refine ⟨by norm_num [ampDeleteFormula], by norm_num [specAmplitude],
    by norm_num [ampDeleteFormula, specAmplitude], ?_⟩
  intro f r i
  unfold refreshAmpArg specAmplitude
  rw [Real.sq_sqrt (by positivity)]

set_option maxRecDepth 4000 in
/-- C2 (counterexample): after 51 pushes onto an empty stack the stack
holds 51 entries — more than the claimed bound of 50 — and the first
snapshot pushed is still present. -/
theorem pushSnapshot_cap_counterexample :
    ((List.range 51).foldl pushSnapshot []).length = 51 ∧
      (0 : ℕ) ∈ (List.range 51).foldl pushSnapshot [] := by
  decide

/-- C2 (amended): the history kept by successive pushes onto an empty
stack is exactly the last 51 snapshots, in push order; hence the stack
never exceeds 51 entries, eviction removes the oldest (index 0) entry
and happens only on a push that finds the stack already above 50, and
the 52nd push is the first one that drops the oldest original entry. -/
theorem pushSnapshot_window (D : Type) (ds : List D) :
    ds.foldl pushSnapshot [] = ds.drop (ds.length - 51) ∧
      (ds.foldl pushSnapshot []).length ≤ 51 := by
  have main : ds.foldl pushSnapshot [] = ds.drop (ds.length - 51) := by
    induction ds using List.reverseRecOn with
    | nil => simp
    | append_singleton ds d ih =>
      rw [List.foldl_append, List.foldl_cons, List.foldl_nil, ih]
      unfold pushSnapshot
      by_cases h : ds.length ≤ 50
      · have h1 : ds.length - 51 = 0 := by omega
        have h2 : (ds ++ [d]).length - 51 = 0 := by
          simp only [List.length_append, List.length_singleton]; omega
        rw [h1, List.drop_zero, h2, List.drop_zero,
          if_neg (by omega : ¬ 50 < ds.length)]
      · push_neg at h
        have hlen : (ds.drop (ds.length - 51)).length = 51 := by
          rw [List.length_drop]; omega
        rw [if_pos (by simp [hlen]), List.drop_drop]
        have h3 : ds.length - 51 + 1 = ds.length - 50 := by omega
        have h4 : (ds ++ [d]).length - 51 = ds.length - 50 := by
          simp only [List.length_append, List.length_singleton]; omega
        rw [h3, h4, List.drop_append_of_le_length (by omega)]
  exact ⟨main, by rw [main, List.length_drop]; omega⟩

/-- C3 (counterexample): a file-selection change does not clear the
undo history: starting from a state whose stack holds one snapshot,
`on_file_selection_changed` leaves that snapshot in place. -/
theorem selection_change_keeps_undo_counterexample :
    (on_file_selection_changed []
      (⟨"", "xy", [], [[]], false, ⟨0, 0, 0, 0⟩,
        ⟨true, false, false, false⟩⟩ : EditorState)).undo_stack ≠ [] := by
  simp [on_file_selection_changed, load_selected_data_into_memory]

/-- C3 (amended): the undo stack is cleared when a new data source is
opened and when the component label is switched, but a file-selection
change replaces the active record set while leaving the undo stack
untouched. -/
theorem undo_stack_clearing (dir label : String) (hdir : dir ≠ "")
    (files : List (String × Option DocData)) (s : EditorState) :
    (open_directory_dialog dir s).undo_stack = [] ∧
      (handle_component_change label files s).undo_stack = [] ∧
      (on_file_selection_changed files s).undo_stack = s.undo_stack := by
  refine ⟨?_, rfl, rfl⟩
  simp [open_directory_dialog, hdir]

/-- C3 (witness). -/
theorem undo_stack_clearing_witness :
    ("d" : String) ≠ "" ∧
      ((open_directory_dialog "d"
        (⟨"", "xy", [], [[]], false, ⟨0, 0, 0, 0⟩,
          ⟨true, false, false, false⟩⟩ : EditorState)).undo_stack = [] ∧
      (handle_component_change "yx" []
        (⟨"", "xy", [], [[]], false, ⟨0, 0, 0, 0⟩,
          ⟨true, false, false, false⟩⟩ : EditorState)).undo_stack = [] ∧
      (on_file_selection_changed []
        (⟨"", "xy", [], [[]], false, ⟨0, 0, 0, 0⟩,
          ⟨true, false, false, false⟩⟩ : EditorState)).undo_stack =
        (⟨"", "xy", [], [[]], false, ⟨0, 0, 0, 0⟩,
          ⟨true, false, false, false⟩⟩ : EditorState).undo_stack) :=
  ⟨by decide, undo_stack_clearing "d" "yx" (by decide) [] _⟩

/-- C5: with the selection box shown and a non-empty working set,
`delete_points_in_roi` followed by `undo_last_action` restores the
active record set — every record's four sequences — exactly. -/
theorem delete_then_undo_roundtrip (s : EditorState)
    (hvis : s.roi_visible = true) (hne : s.active_data ≠ []) :
    (undo_last_action (delete_points_in_roi s).1).active_data = s.active_data := by
  have hg : ¬ (s.roi_visible = false ∨ s.active_data = []) := by
    simp [hvis, hne]
  unfold delete_points_in_roi
  rw [if_neg hg]
  simp only [push_to_undo_stack, pushSnapshot]
  unfold undo_last_action
  simp [List.getLast?_concat]

/-- C5 (witness). -/
theorem delete_then_undo_roundtrip_witness :
    (undo_last_action (delete_points_in_roi
      (⟨"", "xy", [("a", ⟨[1], [2], [3], [4], ⟨[], []⟩⟩)], [], true,
        ⟨0, 0, 1, 1⟩, ⟨true, true, false, false⟩⟩ : EditorState)).1).active_data =
      [("a", ⟨[1], [2], [3], [4], ⟨[], []⟩⟩)] :=
  delete_then_undo_roundtrip _ rfl (by simp)

/-- C6: every record produced by a successful load has four sequences
of equal length and only strictly positive frequencies. -/
theorem loadRecord_invariants (doc : DocData) (comp : String) (r : RecordQ)
    (h : loadRecord doc comp = some r) :
    r.re.length = r.freq.length ∧ r.im.length = r.freq.length ∧
      r.var.length = r.freq.length ∧ ∀ f ∈ r.freq, 0 < f := by
  unfold loadRecord at h
  split at h
  · exact absurd h (by simp)
  · split at h
    case isTrue cb hz hlen =>
      obtain ⟨hlre, hlim, hlvar⟩ := hlen
      cases h
      have hv : (validMask doc.freq).length = doc.freq.length := by
        simp [validMask]
      refine ⟨?_, ?_, ?_, ?_⟩
      · rw [filterByMask_length _ _ (by rw [hv, hlre]),
          filterByMask_length _ _ hv]
      · rw [filterByMask_length _ _ (by rw [hv, hlim]),
          filterByMask_length _ _ hv]
      · rw [filterByMask_length _ _ (by rw [hv, hlvar]),
          filterByMask_length _ _ hv]
      · show ∀ f ∈ filterByMask (validMask doc.freq) doc.freq, 0 < f
        intro f hf
        rw [validMask, filterByMask_map_self] at hf
        have hp := List.of_mem_filter hf
        exact of_decide_eq_true hp
    case isFalse =>
      exact absurd h (by simp)

/-- C6 (witness): a document with one positive and one non-positive
frequency loads to a record with the non-positive index filtered out. -/
theorem loadRecord_invariants_witness :
    loadRecord ⟨[1, -2], [("xy", ⟨[3, 4], [5, 6], [7, 8]⟩)]⟩ "xy" =
        some ⟨[1], [3], [5], [7], ⟨[1, -2], [("xy", ⟨[3, 4], [5, 6], [7, 8]⟩)]⟩⟩ ∧
      ((⟨[1], [3], [5], [7], ⟨[1, -2], [("xy", ⟨[3, 4], [5, 6], [7, 8]⟩)]⟩⟩ :
          RecordQ).re.length =
        (⟨[1], [3], [5], [7], ⟨[1, -2], [("xy", ⟨[3, 4], [5, 6], [7, 8]⟩)]⟩⟩ :
          RecordQ).freq.length ∧
       ∀ f ∈ (⟨[1], [3], [5], [7], ⟨[1, -2], [("xy", ⟨[3, 4], [5, 6], [7, 8]⟩)]⟩⟩ :
          RecordQ).freq, 0 < f) := by
  have h : loadRecord ⟨[1, -2], [("xy", ⟨[3, 4], [5, 6], [7, 8]⟩)]⟩ "xy" =
      some ⟨[1], [3], [5], [7], ⟨[1, -2], [("xy", ⟨[3, 4], [5, 6], [7, 8]⟩)]⟩⟩ := by
    decide
  have h2 := loadRecord_invariants _ _ _ h
  exact ⟨h, h2.1, h2.2.2.2⟩

/-- C7: a single-point deletion at an index at or beyond the record
length raises on the very first `np.delete` call, so the handler
signals the failure and none of the four sequences is modified. -/
theorem single_point_delete_oob (d : RecordQ) (idx : ℕ)
    (h : d.freq.length ≤ idx) :
    on_point_clicked d idx = (d, true) := by
  unfold on_point_clicked npDelete
  rw [if_neg (by omega)]

/-- C7 (witness): deleting at `index == len(freq)` fails and leaves the
record unchanged. -/
theorem single_point_delete_oob_witness :
    (⟨[1], [2], [3], [4], ⟨[], []⟩⟩ : RecordQ).freq.length ≤ 1 ∧
      on_point_clicked ⟨[1], [2], [3], [4], ⟨[], []⟩⟩ 1 =
        (⟨[1], [2], [3], [4], ⟨[], []⟩⟩, true) :=
  ⟨by decide, single_point_delete_oob _ _ (by decide)⟩

/-- C8: when no point of any active mode lies in the (well-formed)
selection rectangle, region deletion deletes nothing: the reported
count is 0 — a success, not an error — and every record's four
sequences are left exactly as they were. -/
theorem empty_region_delete (s : EditorState)
    (hwfx : 0 ≤ s.roi.sizeX) (hwfy : 0 ≤ s.roi.sizeY)
    (hnm : ∀ kd ∈ s.active_data,
      ∀ m ∈ maskToDelete kd.2 s.roi.posX (s.roi.posX + s.roi.sizeX)
        s.roi.posY (s.roi.posY + s.roi.sizeY) s.btns, m = false) :
    (delete_points_in_roi s).2 = 0 ∧
      (delete_points_in_roi s).1.active_data = s.active_data := by
  by_cases hg : s.roi_visible = false ∨ s.active_data = []
  · rw [delete_points_in_roi_guard s hg]
    exact ⟨rfl, rfl⟩
  · have hvis : s.roi_visible = true := by
      cases h1 : s.roi_visible
      · exact absurd (Or.inl h1) hg
      · rfl
    have hne : s.active_data ≠ [] := fun he => hg (Or.inr he)
    rw [delete_points_in_roi_no_match s hvis hne hnm]
    exact ⟨rfl, rfl⟩

/-- C8 (witness): a one-record set whose only point has X coordinate
`-log10(1) = 0`, tested against the box `[1,2] × [0,1]` in real mode:
nothing is deleted and the record is unchanged. -/
theorem empty_region_delete_witness :
    (delete_points_in_roi
      (⟨"", "xy", [("a", ⟨[1], [5], [5], [0], ⟨[], []⟩⟩)], [], true,
        ⟨1, 0, 1, 1⟩, ⟨true, false, false, false⟩⟩ : EditorState)).2 = 0 ∧
      (delete_points_in_roi
        (⟨"", "xy", [("a", ⟨[1], [5], [5], [0], ⟨[], []⟩⟩)], [], true,
          ⟨1, 0, 1, 1⟩, ⟨true, false, false, false⟩⟩ : EditorState)).1.active_data =
        [("a", ⟨[1], [5], [5], [0], ⟨[], []⟩⟩)] := by
  have hx : ¬ (negLog10 1 ≥ (1 : ℝ)) := by
    simp [negLog10, Real.logb_one]
  have hd : decide (negLog10 1 ≥ (1 : ℝ)) = false := decide_eq_false hx
  exact empty_region_delete _ (by norm_num) (by norm_num) (by
    intro kd hkd m hm
    simp only [List.mem_cons, List.not_mem_nil, or_false] at hkd
    subst hkd
    simp only [maskToDelete, orMask, boxMask, List.map_cons, List.map_nil,
      List.length_cons, List.length_nil, List.replicate, List.zipWith, zipWith3,
      if_true, if_false, Bool.false_eq_true, ite_true, ite_false, hd,
      Bool.false_and, Bool.false_or] at hm
    simpa using hm)

/-- C9: `delete_points_in_roi` snapshots the working set before it
tests any point: with the box shown, data loaded and the history below
capacity, even a delete that matches nothing appends one snapshot equal
to the current working set, and the following undo consumes exactly
that entry, returning the state to precisely what it was. -/
theorem delete_pushes_snapshot_unconditionally (s : EditorState)
    (hvis : s.roi_visible = true) (hne : s.active_data ≠ [])
    (hlen : s.undo_stack.length ≤ 50)
    (hnm : ∀ kd ∈ s.active_data,
      ∀ m ∈ maskToDelete kd.2 s.roi.posX (s.roi.posX + s.roi.sizeX)
        s.roi.posY (s.roi.posY + s.roi.sizeY) s.btns, m = false) :
    (delete_points_in_roi s).1.undo_stack = s.undo_stack ++ [s.active_data] ∧
      (delete_points_in_roi s).1.active_data = s.active_data ∧
      (delete_points_in_roi s).2 = 0 ∧
      undo_last_action (delete_points_in_roi s).1 = s := by
  have hpush : pushSnapshot s.undo_stack s.active_data =
      s.undo_stack ++ [s.active_data] := by
    unfold pushSnapshot
    rw [if_neg (by omega)]
  rw [delete_points_in_roi_no_match s hvis hne hnm]
  refine ⟨by simp [hpush], rfl, rfl, ?_⟩
  show undo_last_action
    { s with undo_stack := pushSnapshot s.undo_stack s.active_data } = s
  rw [hpush]
  unfold undo_last_action
  simp [List.getLast?_concat, List.dropLast_concat]

/-- C9 (witness). -/
theorem delete_pushes_snapshot_unconditionally_witness :
    (delete_points_in_roi
      (⟨"", "xy", [("a", ⟨[], [], [], [], ⟨[], []⟩⟩)], [], true,
        ⟨0, 0, 1, 1⟩, ⟨true, true, true, true⟩⟩ : EditorState)).1.undo_stack =
      [[("a", ⟨[], [], [], [], ⟨[], []⟩⟩)]] ∧
    undo_last_action (delete_points_in_roi
      (⟨"", "xy", [("a", ⟨[], [], [], [], ⟨[], []⟩⟩)], [], true,
        ⟨0, 0, 1, 1⟩, ⟨true, true, true, true⟩⟩ : EditorState)).1 =
      (⟨"", "xy", [("a", ⟨[], [], [], [], ⟨[], []⟩⟩)], [], true,
        ⟨0, 0, 1, 1⟩, ⟨true, true, true, true⟩⟩ : EditorState) := by
  have h := delete_pushes_snapshot_unconditionally
    (⟨"", "xy", [("a", ⟨[], [], [], [], ⟨[], []⟩⟩)], [], true,
      ⟨0, 0, 1, 1⟩, ⟨true, true, true, true⟩⟩ : EditorState)
    rfl (by simp) (by simp)
    (by
      intro kd hkd m hm
      simp only [List.mem_cons, List.not_mem_nil, or_false] at hkd
      subst hkd
      simpa [maskToDelete, orMask, boxMask, zipWith3] using hm)
  exact ⟨h.1, h.2.2.2⟩

/-- C4: for a record whose four sequences have equal length, a
well-formed region and at least one active mode, the accumulated
deletion mask marks index `i` exactly when the X value
`-log10(freq[i])` lies in `[x_min, x_max]` and the Y value of at least
one active mode at `i` lies in `[y_min, y_max]` (OR across modes), and
the resulting record is all four raw sequences filtered positionally by
the complement of that mask, order-preserving, with the deleted count
equal to the number of marked indices. -/
theorem region_delete_mark_characterization
    (d : RecordQ) (xmin xmax ymin ymax : ℝ) (b : Btns)
    (hre : d.re.length = d.freq.length) (him : d.im.length = d.freq.length)
    (hvar : d.var.length = d.freq.length)
    (hwf : xmin ≤ xmax ∧ ymin ≤ ymax)
    (hb : b.re = true ∨ b.im = true ∨ b.amp = true ∨ b.ph = true) :
    (maskToDelete d xmin xmax ymin ymax b).length = d.freq.length ∧
    (∀ i, i < d.freq.length →
      ((maskToDelete d xmin xmax ymin ymax b).getD i false = true ↔
        ((xmin ≤ negLog10 (d.freq.getD i 0) ∧ negLog10 (d.freq.getD i 0) ≤ xmax) ∧
         ((b.re = true ∧ ymin ≤ ((d.re.getD i 0 : ℚ) : ℝ) ∧
            ((d.re.getD i 0 : ℚ) : ℝ) ≤ ymax) ∨
          (b.im = true ∧ ymin ≤ ((d.im.getD i 0 : ℚ) : ℝ) ∧
            ((d.im.getD i 0 : ℚ) : ℝ) ≤ ymax) ∨
          (b.amp = true ∧
            ymin ≤ ampDeleteFormula ((d.freq.getD i 0 : ℚ) : ℝ)
              ((d.re.getD i 0 : ℚ) : ℝ) ((d.im.getD i 0 : ℚ) : ℝ) ∧
            ampDeleteFormula ((d.freq.getD i 0 : ℚ) : ℝ)
              ((d.re.getD i 0 : ℚ) : ℝ) ((d.im.getD i 0 : ℚ) : ℝ) ≤ ymax) ∨
          (b.ph = true ∧ ymin ≤ npAngleDeg (d.re.getD i 0) (d.im.getD i 0) ∧
            npAngleDeg (d.re.getD i 0) (d.im.getD i 0) ≤ ymax))))) ∧
    (deleteRecord d xmin xmax ymin ymax b).1 =
      ⟨filterByMask ((maskToDelete d xmin xmax ymin ymax b).map (!·)) d.freq,
       filterByMask ((maskToDelete d xmin xmax ymin ymax b).map (!·)) d.re,
       filterByMask ((maskToDelete d xmin xmax ymin ymax b).map (!·)) d.im,
       filterByMask ((maskToDelete d xmin xmax ymin ymax b).map (!·)) d.var,
       d.original⟩ ∧
    (deleteRecord d xmin xmax ymin ymax b).2 =
      (maskToDelete d xmin xmax ymin ymax b).count true := by
  refine ⟨maskToDelete_length d xmin xmax ymin ymax b hre him, ?_, ?_⟩
  · intro i hi
    have hgd : d.freq.getD i 0 = d.freq[i] := by
      rw [List.getD_eq_getElem?_getD, List.getElem?_eq_getElem hi]
      rfl
    have hif : d.freq[i]? = some (d.freq.getD i 0) := by
      rw [List.getElem?_eq_getElem hi, hgd]
    have hir : d.re[i]? = some (d.re.getD i 0) := by
      have hi' : i < d.re.length := by omega
      have : d.re.getD i 0 = d.re[i] := by
        rw [List.getD_eq_getElem?_getD, List.getElem?_eq_getElem hi']
        rfl
      rw [List.getElem?_eq_getElem hi', this]
    have hii : d.im[i]? = some (d.im.getD i 0) := by
      have hi' : i < d.im.length := by omega
      have : d.im.getD i 0 = d.im[i] := by
        rw [List.getD_eq_getElem?_getD, List.getElem?_eq_getElem hi']
        rfl
      rw [List.getElem?_eq_getElem hi', this]
    have hxs : (d.freq.map negLog10)[i]? = some (negLog10 (d.freq.getD i 0)) := by
      rw [List.getElem?_map, hif]
      rfl
    have hreR : (d.re.map fun q : ℚ => (q : ℝ))[i]? =
        some ((d.re.getD i 0 : ℚ) : ℝ) := by
      rw [List.getElem?_map, hir]
      rfl
    have himR : (d.im.map fun q : ℚ => (q : ℝ))[i]? =
        some ((d.im.getD i 0 : ℚ) : ℝ) := by
      rw [List.getElem?_map, hii]
      rfl
    have hamp : (zipWith3 (fun f r i' : ℚ =>
        ampDeleteFormula (f : ℝ) (r : ℝ) (i' : ℝ)) d.freq d.re d.im)[i]? =
        some (ampDeleteFormula ((d.freq.getD i 0 : ℚ) : ℝ)
          ((d.re.getD i 0 : ℚ) : ℝ) ((d.im.getD i 0 : ℚ) : ℝ)) := by
      rw [zipWith3_getElem?, hif, hir, hii]
      rfl
    have hph : (List.zipWith npAngleDeg d.re d.im)[i]? =
        some (npAngleDeg (d.re.getD i 0) (d.im.getD i 0)) := by
      rw [zipWith_getElem?, hir, hii]
      rfl
    have hm0 : (List.replicate d.freq.length false)[i]? = some false := by
      simp [List.getElem?_replicate, hi]
    have hbRe : (boxMask xmin xmax ymin ymax (d.freq.map negLog10)
        (d.re.map fun q : ℚ => (q : ℝ)))[i]? =
        some (decide (negLog10 (d.freq.getD i 0) ≥ xmin) &&
          decide (negLog10 (d.freq.getD i 0) ≤ xmax) &&
          decide (((d.re.getD i 0 : ℚ) : ℝ) ≥ ymin) &&
          decide (((d.re.getD i 0 : ℚ) : ℝ) ≤ ymax)) := by
      rw [boxMask_getElem?, hxs, hreR]
      rfl
    have hbIm : (boxMask xmin xmax ymin ymax (d.freq.map negLog10)
        (d.im.map fun q : ℚ => (q : ℝ)))[i]? =
        some (decide (negLog10 (d.freq.getD i 0) ≥ xmin) &&
          decide (negLog10 (d.freq.getD i 0) ≤ xmax) &&
          decide (((d.im.getD i 0 : ℚ) : ℝ) ≥ ymin) &&
          decide (((d.im.getD i 0 : ℚ) : ℝ) ≤ ymax)) := by
      rw [boxMask_getElem?, hxs, himR]
      rfl
    have hbAmp : (boxMask xmin xmax ymin ymax (d.freq.map negLog10)
        (zipWith3 (fun f r i' : ℚ =>
          ampDeleteFormula (f : ℝ) (r : ℝ) (i' : ℝ)) d.freq d.re d.im))[i]? =
        some (decide (negLog10 (d.freq.getD i 0) ≥ xmin) &&
          decide (negLog10 (d.freq.getD i 0) ≤ xmax) &&
          decide (ampDeleteFormula ((d.freq.getD i 0 : ℚ) : ℝ)
            ((d.re.getD i 0 : ℚ) : ℝ) ((d.im.getD i 0 : ℚ) : ℝ) ≥ ymin) &&
          decide (ampDeleteFormula ((d.freq.getD i 0 : ℚ) : ℝ)
            ((d.re.getD i 0 : ℚ) : ℝ) ((d.im.getD i 0 : ℚ) : ℝ) ≤ ymax)) := by
      rw [boxMask_getElem?, hxs, hamp]
      rfl
    have hbPh : (boxMask xmin xmax ymin ymax (d.freq.map negLog10)
        (List.zipWith npAngleDeg d.re d.im))[i]? =
        some (decide (negLog10 (d.freq.getD i 0) ≥ xmin) &&
          decide (negLog10 (d.freq.getD i 0) ≤ xmax) &&
          decide (npAngleDeg (d.re.getD i 0) (d.im.getD i 0) ≥ ymin) &&
          decide (npAngleDeg (d.re.getD i 0) (d.im.getD i 0) ≤ ymax)) := by
      rw [boxMask_getElem?, hxs, hph]
      rfl
    have hmask := guardOr_getElem?_some b.ph _ _ i _ _
      (guardOr_getElem?_some b.amp _ _ i _ _
        (guardOr_getElem?_some b.im _ _ i _ _
          (guardOr_getElem?_some b.re _ _ i _ _ hm0 hbRe) hbIm) hbAmp) hbPh
    rw [List.getD_eq_getElem?_getD]
    simp only [maskToDelete]
    rw [hmask]
    simp only [Option.getD_some, Bool.false_or, Bool.or_eq_true,
      Bool.and_eq_true, decide_eq_true_eq, ge_iff_le]
    constructor
    · rintro (((⟨hb1, ⟨⟨hx, hy1⟩, hy2⟩⟩ | ⟨hb1, ⟨⟨hx, hy1⟩, hy2⟩⟩) |
        ⟨hb1, ⟨⟨hx, hy1⟩, hy2⟩⟩) | ⟨hb1, ⟨⟨hx, hy1⟩, hy2⟩⟩)
      · exact ⟨hx, Or.inl ⟨hb1, hy1, hy2⟩⟩
      · exact ⟨hx, Or.inr (Or.inl ⟨hb1, hy1, hy2⟩)⟩
      · exact ⟨hx, Or.inr (Or.inr (Or.inl ⟨hb1, hy1, hy2⟩))⟩
      · exact ⟨hx, Or.inr (Or.inr (Or.inr ⟨hb1, hy1, hy2⟩))⟩
    · rintro ⟨hx, (⟨hb1, hy1, hy2⟩ | ⟨hb1, hy1, hy2⟩ | ⟨hb1, hy1, hy2⟩ |
        ⟨hb1, hy1, hy2⟩)⟩
      · exact Or.inl (Or.inl (Or.inl ⟨hb1, ⟨hx, hy1⟩, hy2⟩))
      · exact Or.inl (Or.inl (Or.inr ⟨hb1, ⟨hx, hy1⟩, hy2⟩))
      · exact Or.inl (Or.inr ⟨hb1, ⟨hx, hy1⟩, hy2⟩)
      · exact Or.inr ⟨hb1, ⟨hx, hy1⟩, hy2⟩
  · constructor
    · by_cases hany : (maskToDelete d xmin xmax ymin ymax b).any id = true
      · simp only [deleteRecord, hany, if_true, ite_true]
      · have hany' : (maskToDelete d xmin xmax ymin ymax b).any id = false :=
          Bool.not_eq_true _ ▸ Bool.eq_false_iff.mpr hany
        have hfalse : ∀ x ∈ maskToDelete d xmin xmax ymin ymax b, x = false := by
          intro x hx
          have := List.any_eq_false.mp hany' x hx
          simpa using this
        have hkeep : ∀ x ∈ (maskToDelete d xmin xmax ymin ymax b).map (!·),
            x = true := by
          intro x hx
          obtain ⟨y, hy, rfl⟩ := List.mem_map.mp hx
          rw [hfalse y hy]
          rfl
        have hklen : ((maskToDelete d xmin xmax ymin ymax b).map (!·)).length =
            d.freq.length := by
          rw [List.length_map, maskToDelete_length d xmin xmax ymin ymax b hre him]
        have h1 := filterByMask_all_true _ d.freq (by rw [hklen]) hkeep
        have h2 := filterByMask_all_true _ d.re (by rw [hklen, hre]) hkeep
        have h3 := filterByMask_all_true _ d.im (by rw [hklen, him]) hkeep
        have h4 := filterByMask_all_true _ d.var (by rw [hklen, hvar]) hkeep
        rw [h1, h2, h3, h4]
        simp [deleteRecord, hany']
    · by_cases hany : (maskToDelete d xmin xmax ymin ymax b).any id = true
      · simp only [deleteRecord, hany, if_true, ite_true]
      · have hany' : (maskToDelete d xmin xmax ymin ymax b).any id = false :=
          Bool.not_eq_true _ ▸ Bool.eq_false_iff.mpr hany
        have hfalse : ∀ x ∈ maskToDelete d xmin xmax ymin ymax b, x = false := by
          intro x hx
          have := List.any_eq_false.mp hany' x hx
          simpa using this
        have hcount : (maskToDelete d xmin xmax ymin ymax b).count true = 0 := by
          rw [List.count_eq_zero]
          intro hmem
          have := hfalse true hmem
          simp at this
        rw [hcount]
        simp [deleteRecord, hany']

theorem logb_ten_two_gt : (1 : ℝ) / 10 < Real.logb 10 2 := by
  rw [Real.lt_logb_iff_rpow_lt (by norm_num) (by norm_num)]
  by_contra hc
  push_neg at hc
  have h10 : ((10 : ℝ) ^ ((1 : ℝ) / 10)) ^ (10 : ℕ) = 10 := by
    rw [← Real.rpow_natCast ((10 : ℝ) ^ ((1 : ℝ) / 10)) 10,
      ← Real.rpow_mul (by norm_num : (0 : ℝ) ≤ 10)]
    norm_num
  have hpow : (2 : ℝ) ^ (10 : ℕ) ≤ ((10 : ℝ) ^ ((1 : ℝ) / 10)) ^ (10 : ℕ) :=
    pow_le_pow_left (by norm_num) hc 10
  rw [h10] at hpow
  norm_num at hpow

theorem negLog10_one : negLog10 1 = 0 := by
  simp [negLog10]

theorem negLog10_two : negLog10 2 = -Real.logb 10 2 := by
  norm_num [negLog10]

theorem negLog10_four : negLog10 4 = -(2 * Real.logb 10 2) := by
  have h4 : ((4 : ℚ) : ℝ) = (2 : ℝ) ^ (2 : ℕ) := by norm_num
  rw [negLog10, h4, Real.logb_pow 10 2 2]
  norm_num

/-- C4 (witness): the specification's worked example.  Record
`{freq:[1,2,4], re:[0.1,0.2,0.3], im:[0,0,0], var:[0.01,0.01,0.01]}`,
region `x ∈ [-log10(2) - 0.1, -log10(2) + 0.1]`, `y ∈ [0, 1]`, real
mode only: exactly index 1 is deleted and the count is 1. -/
theorem region_delete_mark_characterization_witness :
    (deleteRecord
        ⟨[1, 2, 4], [1/10, 2/10, 3/10], [0, 0, 0], [1/100, 1/100, 1/100], ⟨[], []⟩⟩
        (-Real.logb 10 2 - 1/10) (-Real.logb 10 2 + 1/10) 0 1
        ⟨true, false, false, false⟩).1 =
      ⟨[1, 4], [1/10, 3/10], [0, 0], [1/100, 1/100], ⟨[], []⟩⟩ ∧
    (deleteRecord
        ⟨[1, 2, 4], [1/10, 2/10, 3/10], [0, 0, 0], [1/100, 1/100, 1/100], ⟨[], []⟩⟩
        (-Real.logb 10 2 - 1/10) (-Real.logb 10 2 + 1/10) 0 1
        ⟨true, false, false, false⟩).2 = 1 := by
  have H := region_delete_mark_characterization
    ⟨[1, 2, 4], [1/10, 2/10, 3/10], [0, 0, 0], [1/100, 1/100, 1/100], ⟨[], []⟩⟩
    (-Real.logb 10 2 - 1/10) (-Real.logb 10 2 + 1/10) 0 1
    ⟨true, false, false, false⟩ rfl rfl rfl
    ⟨by linarith, by norm_num⟩ (Or.inl rfl)
  obtain ⟨Hlen, Hchar, Hrec, Hcount⟩ := H
  have hm0 : (maskToDelete
      ⟨[1, 2, 4], [1/10, 2/10, 3/10], [0, 0, 0], [1/100, 1/100, 1/100], ⟨[], []⟩⟩
      (-Real.logb 10 2 - 1/10) (-Real.logb 10 2 + 1/10) 0 1
      ⟨true, false, false, false⟩).getD 0 false = false := by
    have hiff := Hchar 0 (by decide)
    simp only [List.getD_cons_zero, List.getD_cons_succ, negLog10_one] at hiff
    apply Bool.eq_false_iff.mpr
    intro h
    rw [hiff] at h
    obtain ⟨⟨-, h2⟩, -⟩ := h
    have := logb_ten_two_gt
    linarith
  have hm1 : (maskToDelete
      ⟨[1, 2, 4], [1/10, 2/10, 3/10], [0, 0, 0], [1/100, 1/100, 1/100], ⟨[], []⟩⟩
      (-Real.logb 10 2 - 1/10) (-Real.logb 10 2 + 1/10) 0 1
      ⟨true, false, false, false⟩).getD 1 false = true := by
    have hiff := Hchar 1 (by decide)
    simp only [List.getD_cons_zero, List.getD_cons_succ, negLog10_two] at hiff
    rw [hiff]
    exact ⟨⟨by linarith, by linarith⟩, Or.inl ⟨trivial, by norm_num, by norm_num⟩⟩
  have hm2 : (maskToDelete
      ⟨[1, 2, 4], [1/10, 2/10, 3/10], [0, 0, 0], [1/100, 1/100, 1/100], ⟨[], []⟩⟩
      (-Real.logb 10 2 - 1/10) (-Real.logb 10 2 + 1/10) 0 1
      ⟨true, false, false, false⟩).getD 2 false = false := by
    have hiff := Hchar 2 (by decide)
    simp only [List.getD_cons_zero, List.getD_cons_succ, negLog10_four] at hiff
    apply Bool.eq_false_iff.mpr
    intro h
    rw [hiff] at h
    obtain ⟨⟨h1, -⟩, -⟩ := h
    have := logb_ten_two_gt
    linarith
  have hgd : ∀ (j : ℕ) (hj : j < (maskToDelete
      ⟨[1, 2, 4], [1/10, 2/10, 3/10], [0, 0, 0], [1/100, 1/100, 1/100], ⟨[], []⟩⟩
      (-Real.logb 10 2 - 1/10) (-Real.logb 10 2 + 1/10) 0 1
      ⟨true, false, false, false⟩).length),
      (maskToDelete
        ⟨[1, 2, 4], [1/10, 2/10, 3/10], [0, 0, 0], [1/100, 1/100, 1/100], ⟨[], []⟩⟩
        (-Real.logb 10 2 - 1/10) (-Real.logb 10 2 + 1/10) 0 1
        ⟨true, false, false, false⟩)[j] =
      (maskToDelete
        ⟨[1, 2, 4], [1/10, 2/10, 3/10], [0, 0, 0], [1/100, 1/100, 1/100], ⟨[], []⟩⟩
        (-Real.logb 10 2 - 1/10) (-Real.logb 10 2 + 1/10) 0 1
        ⟨true, false, false, false⟩).getD j false := by
    intro j hj
    rw [List.getD_eq_getElem?_getD, List.getElem?_eq_getElem hj]
    rfl
  have hmask : maskToDelete
      ⟨[1, 2, 4], [1/10, 2/10, 3/10], [0, 0, 0], [1/100, 1/100, 1/100], ⟨[], []⟩⟩
      (-Real.logb 10 2 - 1/10) (-Real.logb 10 2 + 1/10) 0 1
      ⟨true, false, false, false⟩ = [false, true, false] := by
    apply List.ext_getElem (by rw [Hlen]; rfl)
    intro j h1 h2
    rcases j with - | - | - | j
    · rw [hgd 0 h1, hm0]; rfl
    · rw [hgd 1 h1, hm1]; rfl
    · rw [hgd 2 h1, hm2]; rfl
    · exact absurd h2 (by simp)
  constructor
  · rw [Hrec, hmask]
    rfl
  · rw [Hcount, hmask]
    rfl

/-- C10 (counterexample): a negative `end_idx` survives the
`min`-clamp, and Python slicing then counts it from the end of the
buffer: `get_data_slice(0, -1)` on a 3-sample buffer returns the first
two samples, not an empty slice. -/
theorem get_data_slice_negative_end_counterexample :
    get_data_slice ⟨some [[1, 2, 3]], 3⟩ 0 (-1) = some [[1, 2]] ∧
      ([1, 2] : List ℤ) ≠ [] := by
  constructor
  · decide
  · simp

/-- C10 (amended): for a non-negative `end_idx` the claimed behaviour
holds: `None` only when no buffer is loaded; otherwise the start is
clamped below at 0, the end is clamped above at `num_samples`, every
channel row is sliced to that range without raising, and an inverted or
out-of-range request yields an empty slice.  (For a negative `end_idx`
the clamp keeps the negative value and Python counts it from the end of
the buffer — see the counterexample.) -/
theorem get_data_slice_clamping (r : ATSReaderState) (start_idx end_idx : ℤ)
    (hend : 0 ≤ end_idx) :
    (r.data = none → get_data_slice r start_idx end_idx = none) ∧
      (∀ d, r.data = some d → (∀ row ∈ d, row.length = r.num_samples) →
        get_data_slice r start_idx end_idx =
          some (d.map fun row =>
            (row.take (min (r.num_samples : ℤ) end_idx).toNat).drop
              (max 0 start_idx).toNat) ∧
        (min (r.num_samples : ℤ) end_idx ≤ max 0 start_idx →
          ∀ row ∈ d,
            (row.take (min (r.num_samples : ℤ) end_idx).toNat).drop
              (max 0 start_idx).toNat = ([] : List ℤ))) := by
  constructor
  · intro h
    simp [get_data_slice, h]
  · intro d hd hrows
    constructor
    · simp only [get_data_slice, hd]
      congr 1
      apply List.map_congr_left
      intro row hrow
      have hlen : row.length = r.num_samples := hrows row hrow
      have hb0 : 0 ≤ min (r.num_samples : ℤ) end_idx := by
        have : (0 : ℤ) ≤ (r.num_samples : ℤ) := Int.ofNat_nonneg _
        omega
      have hble : (min (r.num_samples : ℤ) end_idx).toNat ≤ row.length := by
        rw [hlen]
        omega
      have ha0 : 0 ≤ max 0 start_idx := le_max_left 0 start_idx
      unfold pySlice pySliceNorm
      rw [if_neg (by omega), if_neg (by omega)]
      rw [min_eq_left hble]
      by_cases hcase : (max 0 start_idx).toNat ≤ row.length
      · rw [min_eq_left hcase]
      · push_neg at hcase
        rw [min_eq_right (by omega)]
        rw [List.drop_eq_nil_of_le, List.drop_eq_nil_of_le]
        · rw [List.length_take]
          omega
        · rw [List.length_take]
          omega
    · intro hle row hrow
      have h1 : (min (r.num_samples : ℤ) end_idx).toNat ≤
          (max 0 start_idx).toNat := Int.toNat_le_toNat hle
      rw [List.drop_eq_nil_of_le]
      rw [List.length_take]
      omega

/-- C10 (witness): an out-of-range request on a loaded 3-sample buffer
yields an empty slice. -/
theorem get_data_slice_clamping_witness :
    get_data_slice ⟨some [[1, 2, 3]], 3⟩ 5 7 = some [[]] := by
  obtain ⟨-, h2⟩ := get_data_slice_clamping ⟨some [[1, 2, 3]], 3⟩ 5 7 (by norm_num)
  obtain ⟨h3, -⟩ := h2 [[1, 2, 3]] rfl (by decide)
  rw [h3]
  decide

end DrexGeo
